import Mathlib

/-!
Verification development for `kexkill.c`: a single-threaded SSH pre-auth
prober.  The per-connection state machine (`kk_input`, `kk_output`,
`kk_close`), the protocol codec (banner recognition and key-exchange-init
framing), and the event loop (`kexkill`, dispatch over `poll` results) are
embedded shallowly below.

Bytes are `Nat` values (< 256 in every instance considered).  The fixed
2048-byte array `char buf[2048]` is represented sparsely: a `List Nat`
materializes a prefix of the array and every position past the end of the
list holds byte 0 (the whole struct is zeroed by `main` and by
`kk_close`, so unmaterialized memory is genuinely zero).  All reads of
buffer memory therefore go through `byteAt` (`List.getD _ _ 0`), and
every buffer-mutating operation below is position-exact with respect to
this interpretation: byte `i` of the modelled result equals byte `i` of
the real 2048-byte array after the corresponding C operation, for every
`i < 2048`.  In particular stale bytes — bytes at offsets at or beyond
`buflen` left over from earlier reads or shifts — are tracked faithfully.
-/

set_option maxRecDepth 100000

namespace Kexkill

/-- Connection stage, mirroring `enum kk_state` (kexkill.c lines 53-58). -/
inductive KKState
  | closed
  | connected
  | banner
  | kexinit
deriving DecidableEq, Repr

/-- One pool slot, mirroring `struct kk_conn` (lines 51-61): transport fd,
stage, count of valid buffered bytes, and the buffer (sparse
representation of `char buf[2048]`, trailing zeros implicit). -/
structure Conn where
  fd : Int
  state : KKState
  buflen : Nat
  buf : List Nat
deriving DecidableEq, Repr

/-- `sizeof conn->buf` = 2048. -/
def bufCap : Nat := 2048

/-- `MAXCONCUR` (line 49). -/
def MAXCONCUR : Nat := 128

/-- Byte `i` of the buffer array: the materialized prefix, 0 beyond it. -/
def byteAt (l : List Nat) (i : Nat) : Nat := l.getD i 0

/-- `memmove(buf, buf + src, n)` inside the same array: positions
`0..n-1` receive the old bytes at `src..src+n-1`, and positions at and
beyond `n` keep their old contents (the move leaves them untouched). -/
def shiftDown (l : List Nat) (src n : Nat) : List Nat :=
  (List.range n).map (fun i => byteAt l (src + i)) ++ l.drop n

/-- `kk_close` (lines 119-129): `memset(conn, 0, sizeof *conn)` then
`fd = -1`, `state = kk_closed`.  The whole struct, buffer included, is
zeroed, so a reused slot starts with an all-zero buffer. -/
def kk_close (_c : Conn) : Conn := ⟨-1, KKState.closed, 0, []⟩

/-- ASCII bytes of a string literal. -/
def asc (s : String) : List Nat := s.toList.map Char.toNat

/-- The 8-byte version literal `"SSH-2.0-"` compared by `strncmp`
(line 183). -/
def ssh20 : List Nat := asc "SSH-2.0-"

/-- The outbound banner `"SSH-2.0-kexkill\r\n"` (line 63); `kk_output`
sends `sizeof banner - 1` = 17 bytes. -/
def banner : List Nat := asc "SSH-2.0-kexkill\r\n"

/-- The fixed outbound key-exchange-init packet (lines 64-90);
`kk_output` sends `sizeof kexinit - 1` = 208 bytes. -/
def kexinit : List Nat :=
  [0x00, 0x00, 0x00, 0xcc] ++
  [0x08] ++
  [0x14] ++
  asc "give me cookies!" ++
  [0x00, 0x00, 0x00, 0x36] ++
  asc "diffie-hellman-group1-sha1,diffie-hellman-group14-sha1" ++
  [0x00, 0x00, 0x00, 0x0f] ++
  asc "ssh-dss,ssh-rsa" ++
  [0x00, 0x00, 0x00, 0x13] ++
  asc "3des-cbc,aes128-cbc" ++
  [0x00, 0x00, 0x00, 0x13] ++
  asc "3des-cbc,aes128-cbc" ++
  [0x00, 0x00, 0x00, 0x09] ++
  asc "hmac-sha1" ++
  [0x00, 0x00, 0x00, 0x09] ++
  asc "hmac-sha1" ++
  [0x00, 0x00, 0x00, 0x04] ++
  asc "none" ++
  [0x00, 0x00, 0x00, 0x04] ++
  asc "none" ++
  [0x00, 0x00, 0x00, 0x00] ++
  [0x00, 0x00, 0x00, 0x00] ++
  [0x00] ++
  [0x00, 0x00, 0x00, 0x00] ++
  asc "padding!"

/-- Index of the first CR (byte 13) among buffer bytes `0..n-1`, and `n`
when none is found.  Mirrors the scan at lines 174-176, where `eop` ends
at the first `'\r'` or at `eom`; bytes past the materialized prefix are
0, never CR. -/
def crIndex : List Nat → Nat → Nat
  | _, 0 => 0
  | [], m + 1 => m + 1
  | b :: t, m + 1 => if b = 13 then 0 else crIndex t m + 1

/-- `strncmp(a, b, n) == 0`: byte-wise comparison of up to `n` bytes,
stopping early at a difference or at a shared NUL (line 183); bytes past
a strand's materialized prefix read as 0. -/
def strncmpZ : List Nat → List Nat → Nat → Bool
  | _, _, 0 => true
  | a, b, n + 1 =>
    let x := a.headD 0
    let y := b.headD 0
    if x = y then (if x = 0 then true else strncmpZ a.tail b.tail n) else false

/-- The big-endian 32-bit length decode at lines 197-201:
`(uint8_t)buf[0] << 24 | (uint8_t)buf[1] << 16 | (uint8_t)buf[2] << 8 |
(uint8_t)buf[3]`.  (In C the `int` result is converted to `size_t`; for
`buf[0] >= 128` that sign-extends to a value above 2^63, while here it
stays below 2^32 — both values fail the only comparison made with the
result, `len + 4 > 2048`, identically, so the branch taken matches.) -/
def be32 (l : List Nat) : Nat :=
  ((byteAt l 0 % 256) <<< 24) ||| ((byteAt l 1 % 256) <<< 16) |||
    ((byteAt l 2 % 256) <<< 8) ||| (byteAt l 3 % 256)

/-- The `kk_connected` arm of `kk_input` (lines 172-193): scan for CR;
if absent, or the CR is the last buffered byte, wait for more data;
otherwise overwrite the CR with NUL, require LF next, require
`eop - buf <= 255` — `eop` having been advanced past the CR and the LF,
the line including CRLF must total at most 255 bytes — and require the
`"SSH-2.0-"` prefix; on success `memmove` the bytes after the LF down to
the front and enter `kk_banner`.  (A set at an unmaterialized position
is a no-op in the sparse representation: the byte there is already 0.) -/
def connectedStep (c : Conn) : Conn × Int :=
  let idx := crIndex c.buf c.buflen
  if idx + 1 ≥ c.buflen then (c, 0)
  else
    let b1 := c.buf.set idx 0
    if ¬(byteAt b1 (idx + 1) = 10) ∨ idx + 2 > 255 ∨ ¬(strncmpZ b1 ssh20 8 = true) then
      (kk_close c, -1)
    else
      ({ c with buf := shiftDown b1 (idx + 2) (c.buflen - (idx + 2)),
                buflen := c.buflen - (idx + 2),
                state := KKState.banner }, 0)

/-- The `kk_kexinit` arm of `kk_input` (lines 194-224): need 4 bytes for
the big-endian length; `len + 4 > 2048` is an oversize failure (close,
return -1); an incomplete frame waits; a type byte — read at buffer
offset 5 — equal to 1 is a disconnect, closed via `kk_close` with
return 0; any other type (20 is merely logged) leaves the state as is
and the frame is consumed:
`memmove(buf, buf + len + 4, buflen - (len + 4))`, `buflen -= len + 4`. -/
def kexinitStep (c : Conn) : Conn × Int :=
  if c.buflen < 4 then (c, 0)
  else
    let len := be32 c.buf
    if len + 4 > bufCap then (kk_close c, -1)
    else if len + 4 > c.buflen then (c, 0)
    else if byteAt c.buf 5 = 1 then (kk_close c, 0)
    else
      ({ c with buf := shiftDown c.buf (len + 4) (c.buflen - (len + 4)),
                buflen := c.buflen - (len + 4) }, 0)

/-- `kk_input` (lines 151-232).  `r = none` models `read` returning -1
(I/O error, close with -1); `r = some data` models a successful `read`
returning `data.length` bytes (`data = []` is the zero-length read at
EOF; the `take` caps the count at the `len = sizeof buf - buflen` passed
to `read`).  Note the C call is `read(conn->fd, conn->buf, len)` — the
new bytes land at offset 0 of the buffer, not at
`conn->buf + conn->buflen` — while `conn->buflen += rlen` still
advances the valid-byte count past the bytes already held. -/
def kk_input (c : Conn) (r : Option (List Nat)) : Conn × Int :=
  if c.buflen = bufCap then (kk_close c, -1)
  else
    match r with
    | none => (kk_close c, -1)
    | some data =>
      let d := data.take (bufCap - c.buflen)
      let c1 : Conn :=
        { c with buf := d ++ c.buf.drop d.length, buflen := c.buflen + d.length }
      match c1.state with
      | KKState.connected => connectedStep c1
      | KKState.kexinit => kexinitStep c1
      | _ => (c1, 0)

/-- `kk_output` (lines 234-261), with `kk_write`'s success collapsed to
the flag `writeOk` (`kk_write` loops until all bytes are written or the
transport errors, lines 131-149).  Returns the new connection, the
bytes written, and the return code.  In `kk_banner` the banner is
written and the stage becomes `kk_kexinit`; in `kk_kexinit` the fixed
kexinit packet is written and the stage is unchanged (so a later
writable event writes it again); other stages write nothing. -/
def kk_output (writeOk : Bool) (c : Conn) : Conn × List Nat × Int :=
  match c.state with
  | KKState.banner =>
    if writeOk then ({ c with state := KKState.kexinit }, banner, 0)
    else (kk_close c, [], -1)
  | KKState.kexinit =>
    if writeOk then (c, kexinit, 0) else (kk_close c, [], -1)
  | _ => (c, [], 0)

/-- The `revents` bits tested by the dispatch loop (lines 299-308). -/
structure Revents where
  pollin : Bool
  pollout : Bool
  pollerr : Bool
  pollhup : Bool
deriving DecidableEq, Repr

/-- Dispatch for one slot (lines 296-309): a slot whose `pfd.fd` is 0 is
skipped outright; otherwise `POLLERR|POLLHUP` closes the slot and skips
its read/write; then `POLLIN` runs `kk_input` and `POLLOUT` runs
`kk_output` (both may run in the same pass).  `pfdFd` is the snapshot
`pfd[i].fd = conns[i].fd` built before `poll` (line 277). -/
def dispatchSlot (pfdFd : Int) (rv : Revents) (rr : Option (List Nat))
    (wo : Bool) (c : Conn) : Conn :=
  if pfdFd = 0 then c
  else if rv.pollerr || rv.pollhup then kk_close c
  else
    let c1 := if rv.pollin then (kk_input c rr).1 else c
    if rv.pollout then (kk_output wo c1).1 else c1

/-- Dispatch over the whole pool, slot `i` receiving `rv i`, `rr i`,
`wo i`. -/
def dispatchAll (rv : Nat → Revents) (rr : Nat → Option (List Nat))
    (wo : Nat → Bool) : List Conn → Nat → List Conn
  | [], _ => []
  | c :: cs, i =>
    dispatchSlot c.fd (rv i) (rr i) (wo i) c :: dispatchAll rv rr wo cs (i + 1)

/-- Top-up of one slot (lines 272-276): a `kk_closed` slot gets a
`kk_connect` attempt; on success (`ok = true`) the slot holds the new
fd in state `kk_connected` (`kk_connect`, lines 111-112) and the pass
contributes 1 to the success counter `k`; on failure the slot is left
untouched, free for retry on a later pass. -/
def topUpSlot (ok : Bool) (fd : Int) (c : Conn) : Conn × Nat :=
  if c.state = KKState.closed then
    if ok then ({ c with fd := fd, state := KKState.connected }, 1) else (c, 0)
  else (c, 0)

/-- Top-up over the whole pool, returning the new pool and the number of
connections opened this pass. -/
def topUpAll (ok : Nat → Bool) (fd : Nat → Int) : List Conn → Nat → List Conn × Nat
  | [], _ => ([], 0)
  | c :: cs, i =>
    let p := topUpSlot (ok i) (fd i) c
    let q := topUpAll ok fd cs (i + 1)
    (p.1 :: q.1, p.2 + q.2)

/-- `n == 0` at line 285: the top-up scan records `n = i + 1` for every
non-closed slot, so `n = 0` iff every slot is closed after top-up. -/
def allClosed (cs : List Conn) : Bool :=
  cs.all fun c => c.state = KKState.closed

/-- The environment a run of the event loop observes, indexed by pass
number (and slot where relevant): which `connect` attempts succeed and
the fd they produce, whether `poll` reports events (`false` models the
`EINTR`-interrupted wait retried at lines 290-293), and per-slot
`revents`, `read` results and `write` success. -/
structure Env where
  connectOk : Nat → Nat → Bool
  newFd : Nat → Nat → Int
  poll : Nat → Bool
  rv : Nat → Nat → Revents
  readRes : Nat → Nat → Option (List Nat)
  writeOk : Nat → Nat → Bool

/-- The `kexkill` event loop (lines 263-312), fuelled: each pass tops up
closed slots (adding successful opens to the running count `k`),
terminates returning `k` when no slot is active after top-up, retries
the wait when `poll` was interrupted, and otherwise dispatches the
fired events and loops. -/
def kexkillLoop (env : Env) : Nat → Nat → List Conn → Nat → Option Nat
  | 0, _, _, _ => none
  | fuel + 1, pass, conns, k =>
    let tu := topUpAll (env.connectOk pass) (env.newFd pass) conns 0
    let k2 := k + tu.2
    if allClosed tu.1 then some k2
    else if env.poll pass then
      kexkillLoop env fuel (pass + 1)
        (dispatchAll (env.rv pass) (env.readRes pass) (env.writeOk pass) tu.1 0) k2
    else kexkillLoop env fuel (pass + 1) tu.1 k2

/-- The endpoint iteration in `main` (lines 358-360): walk the resolved
addresses, stopping at the first one for which `kexkill` reports at
least one successful open; `f` gives `kexkill`'s return for each
endpoint.  `main` then frees the list and calls `exit(0)` regardless of
whether any endpoint was kept. -/
def tryEndpoints (f : Nat → Nat) : List Nat → Option Nat
  | [] => none
  | e :: es => if 0 < f e then some e else tryEndpoints f es

/-- A freshly opened connection as `kk_connect` leaves it when the pool
slot was zeroed: some positive fd, `kk_connected`, empty zeroed buffer. -/
def connInit : Conn := ⟨3, KKState.connected, 0, []⟩

/-- A connection that has completed the banner exchange and sent its
kexinit: stage `kk_kexinit`, empty zeroed buffer. -/
def kexConn : Conn := ⟨3, KKState.kexinit, 0, []⟩

/-- A closed pool slot as `main` initializes it (lines 350-352). -/
def closedConn : Conn := ⟨-1, KKState.closed, 0, []⟩

/-- A valid minimal peer banner, `"SSH-2.0-X\r\n"`. -/
def bannerEx : List Nat := asc "SSH-2.0-X\r\n"

/-- Feed successive read results through `kk_input`, as successive
`POLLIN` dispatches would. -/
def feed (c : Conn) (chunks : List (List Nat)) : Conn :=
  chunks.foldl (fun a d => (kk_input a (some d)).1) c

/-- A connected slot whose buffer holds a CRLF-terminated,
`"SSH-2.0-"`-prefixed banner line of 254 bytes before the CR
(256 bytes in all, CR at offset 254, LF at offset 255). -/
def c5cex : Conn :=
  ⟨3, KKState.connected, 256, asc "SSH-2.0-" ++ List.replicate 246 97 ++ [13, 10]⟩

/-- A connected slot whose buffer holds the 12-byte line
`"SSH-2.0-ok\r\n"` and nothing else. -/
def c5wit : Conn := ⟨3, KKState.connected, 12, asc "SSH-2.0-ok" ++ 13 :: 10 :: []⟩

/-- A kexinit-stage slot whose buffer holds the complete 5-byte frame
`00 00 00 01 63` (declared length 1) followed by the two stale trailing
bytes `07 2a`. -/
def c6wit : Conn := ⟨4, KKState.kexinit, 7, [0, 0, 0, 1, 99, 7, 42]⟩

/-- A kexinit-stage slot whose buffer starts with the length field
`ff ff 00 00`, declaring a 4294901760-byte packet. -/
def c7wit : Conn := ⟨4, KKState.kexinit, 4, [255, 255, 0, 0]⟩

/-- An environment in which every `connect` attempt is refused and
`poll` is never interrupted. -/
def refuseEnv : Env :=
  ⟨fun _ _ => false, fun _ _ => -1, fun _ => true,
   fun _ _ => ⟨false, false, false, false⟩, fun _ _ => none, fun _ _ => true⟩

/-- A slot whose transport handle is file descriptor 0. -/
def fd0Conn : Conn := ⟨0, KKState.kexinit, 0, []⟩

end Kexkill

namespace Kexkill

/-! ### Buffer lemmas -/

/-- Within the moved region, `shiftDown` reads exactly the source bytes. -/
theorem byteAt_shiftDown (l : List Nat) (src n i : Nat) (h : i < n) :
    byteAt (shiftDown l src n) i = byteAt l (src + i) := by
  unfold shiftDown
  rw [byteAt, List.getD_append _ _ _ _ (by simpa using h),
      List.getD_eq_getElem _ _ (by simpa using h)]
  simp

/-- The CR scan over a buffer whose first CR sits right after `line`
stops at `line.length`. -/
theorem crIndex_append_cr (line r : List Nat) (n : Nat)
    (hcr : ∀ b ∈ line, b ≠ 13) (hn : line.length < n) :
    crIndex (line ++ 13 :: r) n = line.length := by
  induction line generalizing n with
  | nil =>
    cases n with
    | zero => omega
    | succ m => simp [crIndex]
  | cons a t ih =>
    cases n with
    | zero => omega
    | succ m =>
      have ha : a ≠ 13 := hcr a (by simp)
      have ht : crIndex (t ++ 13 :: r) m = t.length :=
        ih m (fun b hb => hcr b (List.mem_cons_of_mem a hb)) (by simpa using hn)
      simp [crIndex, ha, ht]

/-- Writing at the seam position of an append. -/
theorem set_append_self (l : List Nat) (a v : Nat) (r : List Nat) :
    (l ++ a :: r).set l.length v = l ++ v :: r := by
  induction l with
  | nil => rfl
  | cons x t ih => simp [List.set, ih]

/-- Reading one past the seam of an append. -/
theorem byteAt_append_two (l : List Nat) (a b : Nat) (r : List Nat) :
    byteAt (l ++ a :: b :: r) (l.length + 1) = b := by
  induction l with
  | nil => rfl
  | cons x t ih => simpa [byteAt, List.getD] using ih

/-- `strncmp` against a NUL-free pattern `p`, applied to a strand that
carries a NUL right after its first `a.length` bytes, succeeds exactly
when the strand starts with `p`. -/
theorem strncmpZ_append_nul (p : List Nat) (h0 : ∀ b ∈ p, b ≠ 0) :
    ∀ a t : List Nat, strncmpZ (a ++ 0 :: t) p p.length = true ↔ a.take p.length = p := by
  induction p with
  | nil => intro a t; simp [strncmpZ]
  | cons y p2 ih =>
    intro a t
    have hy : y ≠ 0 := h0 y (by simp)
    have h02 : ∀ b ∈ p2, b ≠ 0 := fun b hb => h0 b (by simp [hb])
    cases a with
    | nil =>
      have hy0 : ¬(0 = y) := fun h => hy h.symm
      simp [strncmpZ, hy0]
    | cons x a2 =>
      by_cases hxy : x = y
      · subst hxy
        simp [strncmpZ, hy, ih h02 a2 t]
      · simp [strncmpZ, hxy]

/-- A top-up pass in which every `connect` attempt fails leaves the pool
unchanged and opens nothing. -/
theorem topUpAll_refused (ok : Nat → Bool) (fd : Nat → Int)
    (h : ∀ i, ok i = false) :
    ∀ (cs : List Conn) (i : Nat), topUpAll ok fd cs i = (cs, 0) := by
  intro cs
  induction cs with
  | nil => intro i; rfl
  | cons c cs ih => intro i; simp [topUpAll, topUpSlot, h i, ih (i + 1)]

end Kexkill

namespace Kexkill

/-! ### Claim theorems -/

/-- Claim C1.  The claim asserts fragmentation-invariance of the codec
"because each receive appends the new bytes after the bytes already
buffered".  The code does not append: `read(conn->fd, conn->buf, len)`
stores every read at offset 0.  Delivered in one read, the valid banner
`"SSH-2.0-X\r\n"` is accepted (stage `kk_banner`, empty residual buffer,
return 0); delivered one byte per read, each byte overwrites offset 0,
the CR arrives with only stale zeros behind it, and the connection is
closed as an invalid banner — a different end state. -/
theorem fragmented_banner_diverges :
    ((kk_input connInit (some bannerEx)).1.state = KKState.banner
      ∧ (kk_input connInit (some bannerEx)).1.buflen = 0
      ∧ (kk_input connInit (some bannerEx)).2 = 0)
    ∧ (feed connInit (bannerEx.map fun b => [b])).state = KKState.closed := by
  decide

/-- Claim C2, counterexample.  Delivering `00 00 00 02` and then, in a
later read, `01 00` to a kexinit-stage connection does not produce a
clean close with zero errors: the second read overwrites the first two
length bytes (reads land at offset 0), the length field decodes as
16777218, and the connection is closed with the oversize-packet error
return -1.  Moreover even delivered in a single read this 6-byte frame
does not close the connection at all: its byte at offset 5 — where the
code reads the message type — is 0, not the disconnect type 1, so the
frame is consumed and the connection stays in `kk_kexinit`. -/
theorem disconnect_scenario_errors :
    ((kk_input (kk_input kexConn (some [0, 0, 0, 2])).1 (some [1, 0])).2 = -1
      ∧ (kk_input (kk_input kexConn (some [0, 0, 0, 2])).1 (some [1, 0])).1.state
          = KKState.closed)
    ∧ ((kk_input kexConn (some [0, 0, 0, 2, 1, 0])).2 = 0
      ∧ (kk_input kexConn (some [0, 0, 0, 2, 1, 0])).1.state = KKState.kexinit
      ∧ (kk_input kexConn (some [0, 0, 0, 2, 1, 0])).1.buflen = 0) := by
  decide

/-- Claim C3.  The code treats a zero-byte read as an ordinary success:
`kk_input` only fails the read when `rlen < 0`, so a peer half-close
(`read` returning 0) adds nothing to the buffer and returns 0, leaving
the connection open in its current stage — it is not the hard failure
the claim (and the spec) requires. -/
theorem zero_read_left_open :
    kk_input connInit (some []) = (connInit, 0)
    ∧ connInit.state = KKState.connected := by
  decide

/-- Claim C4.  The scenario's banner `"SSH-2.0-OpenSSH_9.0\r\n"` split
as `"SSH-2.0-Open"` then `"SSH_9.0\r\n"` does not lead to the banner
exchange: the second read overwrites the buffer head (reads land at
offset 0), the line scanned is `"SSH_9.0\r\npen"`, and the connection
closes with the invalid-banner error return -1.  Delivered in a single
read instead, the claimed behavior is exactly what happens: the banner
is accepted, the next writable event sends the literal banner string
and moves to `kk_kexinit`, the following writable event sends the fixed
kexinit byte sequence, and the stage remains `kk_kexinit`. -/
theorem split_banner_scenario :
    ((kk_input connInit (some (asc "SSH-2.0-Open"))).1.state = KKState.connected
      ∧ (kk_input (kk_input connInit (some (asc "SSH-2.0-Open"))).1
            (some (asc "SSH_9.0\r\n"))).1.state = KKState.closed
      ∧ (kk_input (kk_input connInit (some (asc "SSH-2.0-Open"))).1
            (some (asc "SSH_9.0\r\n"))).2 = -1)
    ∧ (let u1 := kk_input connInit (some (asc "SSH-2.0-OpenSSH_9.0\r\n"));
       let u2 := kk_output true u1.1;
       let u3 := kk_output true u2.1;
       u1.1.state = KKState.banner ∧ u1.1.buflen = 0
        ∧ u2.2.1 = banner ∧ u2.1.state = KKState.kexinit
        ∧ u3.2.1 = kexinit ∧ u3.1.state = KKState.kexinit) := by
  decide

/-- Claim C5, counterexample.  A buffered line that is CRLF-terminated,
carries the `"SSH-2.0-"` prefix and has 254 bytes before the CRLF
terminator — within the claim's 255-byte allowance — is not accepted:
the code bounds `eop - buf`, the line length including CRLF, by 255, so
it closes this connection as a protocol violation (return -1). -/
theorem banner_254_rejected :
    c5cex.buflen = 256
    ∧ byteAt c5cex.buf 254 = 13 ∧ byteAt c5cex.buf 255 = 10
    ∧ c5cex.buf.take 8 = ssh20
    ∧ (connectedStep c5cex).1.state = KKState.closed
    ∧ (connectedStep c5cex).2 = -1 := by
  decide

/-- Claim C7.  In the kexinit stage with at least 4 buffered bytes, a
declared length whose frame `len + 4` exceeds the 2048-byte capacity
closes the connection (return -1) no matter how much of the packet has
arrived. -/
theorem kexinit_oversize (c : Conn) (hst : c.state = KKState.kexinit)
    (h1 : 4 ≤ c.buflen) (h2 : bufCap < be32 c.buf + 4) :
    kexinitStep c = (kk_close c, -1) := by
  simp only [kexinitStep]
  rw [if_neg (by omega), if_pos (by omega)]

/-- Witness for `kexinit_oversize`: the 4-byte buffer `ff ff 00 00`
declares a 4294901760-byte packet and the connection is closed. -/
theorem kexinit_oversize_witness :
    kexinitStep c7wit = (kk_close c7wit, -1) :=
  kexinit_oversize c7wit rfl (by decide) (by decide)

/-- Claim C10.  The dispatch loop skips any slot whose snapshot
`pfd[i].fd` equals 0 before looking at `revents`, so a connection whose
transport handle is file descriptor 0 is never delivered a readable,
writable, or error event: dispatch returns it unchanged, whatever
events fired and whatever bytes were available. -/
theorem fd0_slot_skipped (c : Conn) (h : c.fd = 0) (rv : Revents)
    (rr : Option (List Nat)) (wo : Bool) :
    dispatchSlot c.fd rv rr wo c = c := by
  rw [h]
  simp [dispatchSlot]

/-- Witness for `fd0_slot_skipped`: a kexinit-stage slot on fd 0 with
all of `POLLIN`, `POLLOUT`, `POLLERR`, `POLLHUP` fired and a byte
available to read stays exactly as it is. -/
theorem fd0_slot_skipped_witness :
    dispatchSlot fd0Conn.fd ⟨true, true, true, true⟩ (some [1]) true fd0Conn = fd0Conn :=
  fd0_slot_skipped fd0Conn rfl ⟨true, true, true, true⟩ (some [1]) true

end Kexkill

namespace Kexkill

/-- Claim C2 (amended).  A disconnect frame whose type byte at buffer
offset 5 is 1 — such as `00 00 00 02 00 01` — delivered whole in a
single read to a connection in the kexinit stage (with room for its 6
bytes) closes the connection via `kk_close` with return 0: a clean
close with zero reported errors. -/
theorem single_read_disconnect_clean (c : Conn)
    (h1 : c.state = KKState.kexinit) (h2 : c.buflen + 6 ≤ bufCap) :
    kk_input c (some [0, 0, 0, 2, 0, 1]) = (kk_close c, 0) := by
  have h2n : c.buflen + 6 ≤ 2048 := h2
  have hne : ¬(c.buflen = bufCap) := by omega
  have htake : (([0, 0, 0, 2, 0, 1] : List Nat).take (bufCap - c.buflen))
      = [0, 0, 0, 2, 0, 1] :=
    List.take_of_length_le (by simp [bufCap]; omega)
  have h4 : ¬(c.buflen + 6 < 4) := by omega
  simp only [kk_input, if_neg hne, htake, h1]
  simp [kexinitStep, be32, byteAt, bufCap, h4, kk_close]

/-- Witness for `single_read_disconnect_clean` on a fresh kexinit-stage
connection with an empty buffer. -/
theorem single_read_disconnect_clean_witness :
    kk_input kexConn (some [0, 0, 0, 2, 0, 1]) = (kk_close kexConn, 0) :=
  single_read_disconnect_clean kexConn rfl (by decide)

/-- Claim C5 (amended).  A buffered line in the connected stage — CR-free
bytes `line`, then the CR the scan stops at, then the next buffered byte
`lf` — is accepted (the connection advances to the banner-sending stage)
if and only if `lf` is the line-feed, the line is at most 253 bytes
before the CRLF terminator (the code bounds the whole line, CRLF
included, by 255), and the line starts with the 8-byte prefix
`"SSH-2.0-"`; otherwise — line-feed missing, line too long, or prefix
wrong — the connection is closed as a protocol violation with
return -1, never a successful transition. -/
theorem banner_acceptance (line rest : List Nat) (lf e : Nat) (c : Conn)
    (hb : c.buf = line ++ 13 :: lf :: rest)
    (hn : c.buflen = line.length + 2 + e)
    (hcr : ∀ b ∈ line, b ≠ 13) :
    ((connectedStep c).1.state = KKState.banner ↔
      lf = 10 ∧ line.length + 2 ≤ 255 ∧ line.take 8 = ssh20)
    ∧ (¬(lf = 10 ∧ line.length + 2 ≤ 255 ∧ line.take 8 = ssh20) →
      connectedStep c = (kk_close c, -1)) := by
  have hidx : crIndex c.buf c.buflen = line.length := by
    rw [hb]
    exact crIndex_append_cr line (lf :: rest) _ hcr (by omega)
  have hset : c.buf.set line.length 0 = line ++ 0 :: lf :: rest := by
    rw [hb]
    exact set_append_self line 13 0 (lf :: rest)
  have hlf : byteAt (line ++ 0 :: lf :: rest) (line.length + 1) = lf :=
    byteAt_append_two line 0 lf rest
  have h8 : ssh20.length = 8 := by decide
  have h0 : ∀ b ∈ ssh20, b ≠ 0 := by decide
  have hpre := strncmpZ_append_nul ssh20 h0 line (lf :: rest)
  rw [h8] at hpre
  simp only [connectedStep, hidx, hset, hlf]
  rw [if_neg (show ¬(line.length + 1 ≥ c.buflen) by omega)]
  by_cases hc : lf = 10 ∧ line.length + 2 ≤ 255 ∧ List.take 8 line = ssh20
  · obtain ⟨h10, h255, hteq⟩ := hc
    subst h10
    rw [if_neg (by simp [hpre, hteq]; omega)]
    exact ⟨iff_of_true rfl ⟨rfl, h255, hteq⟩, fun h => absurd ⟨rfl, h255, hteq⟩ h⟩
  · have hor : ¬(lf = 10) ∨ line.length + 2 > 255 ∨ ¬(List.take 8 line = ssh20) := by
      by_cases h1 : lf = 10
      · by_cases h255 : line.length + 2 ≤ 255
        · exact Or.inr (Or.inr fun hteq => hc ⟨h1, h255, hteq⟩)
        · exact Or.inr (Or.inl (by omega))
      · exact Or.inl h1
    rw [if_pos (hor.elim Or.inl fun h =>
      Or.inr (h.elim Or.inl fun hx => Or.inr fun hB => hx (hpre.mp hB)))]
    exact ⟨iff_of_false (by simp [kk_close]) hc, fun _ => rfl⟩

/-- Witness for `banner_acceptance`: the 12-byte line
`"SSH-2.0-ok\r\n"` satisfies all three conditions and is accepted. -/
theorem banner_acceptance_witness :
    (((connectedStep c5wit).1.state = KKState.banner ↔
      (10 : Nat) = 10 ∧ (asc "SSH-2.0-ok").length + 2 ≤ 255
        ∧ (asc "SSH-2.0-ok").take 8 = ssh20)
    ∧ (¬((10 : Nat) = 10 ∧ (asc "SSH-2.0-ok").length + 2 ≤ 255
        ∧ (asc "SSH-2.0-ok").take 8 = ssh20) →
      connectedStep c5wit = (kk_close c5wit, -1))) :=
  banner_acceptance (asc "SSH-2.0-ok") [] 10 0 c5wit rfl (by decide) (by decide)

/-- Claim C6.  In the kexinit stage, once a frame of declared length
`L = be32 buf` is complete (`L + 4 ≤ buflen`) and within capacity, and
its type byte at offset 5 is not the disconnect type, consuming it
removes exactly `L + 4` bytes from the front of the buffer — the new
length is `buflen - (L + 4)` and every remaining valid byte `i` is the
old byte `L + 4 + i`, so trailing bytes are preserved in order — with
the stage unchanged and return 0. -/
theorem kexinit_consume (c : Conn) (hst : c.state = KKState.kexinit)
    (h2 : be32 c.buf + 4 ≤ bufCap) (h3 : be32 c.buf + 4 ≤ c.buflen)
    (h4 : ¬(byteAt c.buf 5 = 1)) :
    (kexinitStep c).2 = 0
    ∧ (kexinitStep c).1.state = KKState.kexinit
    ∧ (kexinitStep c).1.buflen = c.buflen - (be32 c.buf + 4)
    ∧ ∀ i < c.buflen - (be32 c.buf + 4),
        byteAt (kexinitStep c).1.buf i = byteAt c.buf (be32 c.buf + 4 + i) := by
  have hr : kexinitStep c =
      ({ c with buf := shiftDown c.buf (be32 c.buf + 4) (c.buflen - (be32 c.buf + 4)),
                buflen := c.buflen - (be32 c.buf + 4) }, 0) := by
    simp only [kexinitStep]
    rw [if_neg (by omega), if_neg (by omega), if_neg (by omega), if_neg h4]
  rw [hr]
  exact ⟨rfl, hst, rfl, fun i hi => byteAt_shiftDown _ _ _ _ hi⟩

/-- Witness for `kexinit_consume`: the complete frame `00 00 00 01 63`
(declared length 1) with trailing bytes `07 2a` is consumed, leaving
the two trailing bytes at the front in order. -/
theorem kexinit_consume_witness :
    (kexinitStep c6wit).2 = 0
    ∧ (kexinitStep c6wit).1.state = KKState.kexinit
    ∧ (kexinitStep c6wit).1.buflen = c6wit.buflen - (be32 c6wit.buf + 4)
    ∧ ∀ i < c6wit.buflen - (be32 c6wit.buf + 4),
        byteAt (kexinitStep c6wit).1.buf i = byteAt c6wit.buf (be32 c6wit.buf + 4 + i) :=
  kexinit_consume c6wit rfl (by decide) (by decide) (by decide)

/-- Claim C9.  Once a frame of declared length `L = 1` is complete
(`buflen = L + 4 = 5`), the type dispatch reads buffer offset 5 — past
the end of the framed packet and past the valid data: with the received
frame `00 00 00 01 t` fixed, the outcome is decided entirely by the
stale byte `s` at offset 5, the connection being closed as a disconnect
exactly when `s = 1` (and the return is 0 either way). -/
theorem kexinit_stale_type (t s : Nat) (rest : List Nat)
    (ht : t < 256) (hs : s < 256) :
    ((kexinitStep ⟨4, KKState.kexinit, 5, 0 :: 0 :: 0 :: 1 :: t :: s :: rest⟩).1.state
        = KKState.closed ↔ s = 1)
    ∧ (kexinitStep ⟨4, KKState.kexinit, 5, 0 :: 0 :: 0 :: 1 :: t :: s :: rest⟩).2 = 0 := by
  have hbe : be32 (0 :: 0 :: 0 :: 1 :: t :: s :: rest) = 1 := by
    simp [be32, byteAt]
  by_cases h1 : s = 1
  · subst h1
    simp [kexinitStep, hbe, byteAt, bufCap, kk_close]
  · simp [kexinitStep, hbe, byteAt, bufCap, h1]

/-- Witness for `kexinit_stale_type` with packet byte `t = 20` and
stale byte `s = 1`: the connection is closed although no disconnect
message was received. -/
theorem kexinit_stale_type_witness :
    ((kexinitStep ⟨4, KKState.kexinit, 5, 0 :: 0 :: 0 :: 1 :: 20 :: 1 :: []⟩).1.state
        = KKState.closed ↔ (1 : Nat) = 1)
    ∧ (kexinitStep ⟨4, KKState.kexinit, 5, 0 :: 0 :: 0 :: 1 :: 20 :: 1 :: []⟩).2 = 0 :=
  kexinit_stale_type 20 1 [] (by decide) (by decide)

/-- Claim C8.  The event loop terminates exactly when no slot is active
after the top-up step, returning the accumulated count of successful
opens: (1) if top-up leaves every slot closed the pass returns
`k + opened`; (2) otherwise the loop continues into the next pass with
the dispatched pool and the updated count; (3) in particular, when
every `connect` attempt is refused and all slots start closed, the loop
ends on its first pass reporting exactly the count it started with
(0 for a fresh run); and (4) the caller's endpoint iteration treats a
0 return not as an error but by moving on to the next resolved
endpoint. -/
theorem event_loop_contract :
    (∀ (env : Env) (fuel pass k : Nat) (conns : List Conn),
      allClosed (topUpAll (env.connectOk pass) (env.newFd pass) conns 0).1 = true →
      kexkillLoop env (fuel + 1) pass conns k
        = some (k + (topUpAll (env.connectOk pass) (env.newFd pass) conns 0).2))
    ∧ (∀ (env : Env) (fuel pass k : Nat) (conns : List Conn),
      allClosed (topUpAll (env.connectOk pass) (env.newFd pass) conns 0).1 = false →
      env.poll pass = true →
      kexkillLoop env (fuel + 1) pass conns k
        = kexkillLoop env fuel (pass + 1)
            (dispatchAll (env.rv pass) (env.readRes pass) (env.writeOk pass)
              (topUpAll (env.connectOk pass) (env.newFd pass) conns 0).1 0)
            (k + (topUpAll (env.connectOk pass) (env.newFd pass) conns 0).2))
    ∧ (∀ (env : Env) (fuel pass k : Nat) (conns : List Conn),
      (∀ p i, env.connectOk p i = false) → allClosed conns = true →
      kexkillLoop env (fuel + 1) pass conns k = some k)
    ∧ (∀ (f : Nat → Nat) (e : Nat) (es : List Nat),
      f e = 0 → tryEndpoints f (e :: es) = tryEndpoints f es) := by
  refine ⟨?_, ?_, ?_, ?_⟩
  · intro env fuel pass k conns h
    simp only [kexkillLoop]
    rw [if_pos h]
  · intro env fuel pass k conns h hp
    simp only [kexkillLoop]
    rw [if_neg (by simp [h]), if_pos hp]
  · intro env fuel pass k conns h hall
    have htu := topUpAll_refused (env.connectOk pass) (env.newFd pass) (h pass) conns 0
    simp [kexkillLoop, htu, hall]
  · intro f e es h
    simp [tryEndpoints, h]

/-- Witness for `event_loop_contract`: against an environment refusing
every connection, a full fresh pool of `MAXCONCUR` closed slots makes
the loop stop on its first pass with open-count 0; and an endpoint
whose run opened 0 connections is passed over for the next one. -/
theorem event_loop_contract_witness :
    kexkillLoop refuseEnv 1 0 (List.replicate MAXCONCUR closedConn) 0 = some 0
    ∧ tryEndpoints (fun _ => 0) [5, 6] = tryEndpoints (fun _ => 0) [6] := by
  constructor
  · exact event_loop_contract.2.2.1 refuseEnv 0 0 0 (List.replicate MAXCONCUR closedConn)
      (fun p i => rfl) (by decide)
  · exact event_loop_contract.2.2.2 (fun _ => 0) 5 [6] rfl

end Kexkill
